import Mathlib

/-
Verification of the CERS VideoRecorder component (src/vite.config.ts).

The component is a React function component; we embed it as an explicit
state machine.  The React state hooks and refs become fields of
`RecorderModel`; each handler of the source becomes a Lean function on
that state; the asynchronous environment (getUserMedia resolution,
MediaRecorder data/stop callbacks, user clicks on the rendered buttons)
becomes an `Event` type with a guarded `step` function.  Callback
invocations towards the host application (`onSave`) are recorded in the
ghost field `saved`; calls of `startCamera` are counted in the ghost
field `acquireCalls`; the set of media streams whose tracks have not
been stopped is tracked in the ghost field `activeStreams`.
-/

namespace CERS

/-- Facing mode of the camera, `'user' | 'environment'` in the source. -/
inductive Facing where
  | user
  | environment
deriving DecidableEq, Repr

/-- A media-data fragment delivered by the capture primitive
(`e.data` in `ondataavailable`): an identity and a byte size. -/
structure Chunk where
  cid : Nat
  size : Nat
deriving DecidableEq, Repr

/-- A blob assembled from fragments (`new Blob(chunksRef.current, ...)`). -/
abbrev Blob := List Chunk

/-- The `state` attribute of a MediaRecorder as the source consults it:
`'recording'` before `stop()` is executed, `'inactive'` afterwards. -/
inductive RecState where
  | recording
  | inactive
deriving DecidableEq, Repr

/-- A MediaRecorder object: the stream it records, its state, and a ghost
counter of how many times its `stop()` has actually been executed. -/
structure MediaRec where
  streamId : Nat
  state : RecState
  stops : Nat
deriving DecidableEq, Repr

/-- LocationData from `../types`; the component only passes it through,
so any carrier with decidable equality is faithful. -/
structure LocationData where
  latitude : Int
  longitude : Int
deriving DecidableEq, Repr

/-- The component props (`VideoRecorderProps`), fixed for a session. -/
structure Props where
  emergencyId : String
  emergencyType : String
  location : LocationData
deriving DecidableEq, Repr

/-- A getUserMedia request in flight.  `startCamera` is a closure of the
render that issued it, so its code after the `await` reads the
`reviewMode`, `recording` and `timeLeft` values captured at issuance —
not the live state.  The request therefore carries that snapshot. -/
structure AcqReq where
  facing : Facing
  revSnap : Bool
  recSnap : Bool
  tlSnap : Int
deriving DecidableEq, Repr

/-- The artifact handed to `onSave`. -/
structure VideoEvidence where
  id : String
  url : Blob
  timestamp : String
  duration : Int
  emergencyType : String
  location : LocationData
deriving DecidableEq, Repr

/-- The whole component state: React `useState` hooks, the refs, plus
ghost instrumentation (`activeStreams`, `pendingAcqs`, `acquireCalls`,
`saved`, `stopPending`). -/
structure RecorderModel where
  recording : Bool
  timeLeft : Int
  isMuted : Bool
  facingMode : Facing
  cameraError : Bool
  reviewMode : Bool
  videoUrl : Option Blob
  chunks : List Chunk
  streamRef : Option Nat
  mediaRecorder : Option MediaRec
  /-- a `stop` event of the recorder has been queued but its `onstop`
  callback has not yet run -/
  stopPending : Bool
  /-- ids of streams created by getUserMedia whose tracks are not stopped -/
  activeStreams : List Nat
  nextStreamId : Nat
  /-- getUserMedia requests issued but not yet resolved, each with the
  state snapshot captured by the issuing closure -/
  pendingAcqs : List AcqReq
  acquireCalls : Nat
  saved : List VideoEvidence
deriving DecidableEq, Repr

/-- Stopping every track of the stream held by a ref. -/
def stopTracks (r : Option Nat) (act : List Nat) : List Nat :=
  match r with
  | some i => act.erase i
  | none => act

/-- `stopCamera`: stops every track of `streamRef.current` and nulls the ref. -/
def stopCamera (s : RecorderModel) : RecorderModel :=
  { s with activeStreams := stopTracks s.streamRef s.activeStreams,
           streamRef := none }

/-- `startCamera` up to its `await`: stop the previous stream, clear
`cameraError`, and issue a getUserMedia request with the current facing
mode.  The request outcome arrives later as an `acqSuccess`/`acqFail`
event. -/
def startCamera (s : RecorderModel) : RecorderModel :=
  { stopCamera s with cameraError := false,
                      pendingAcqs := s.pendingAcqs ++
                        [{ facing := s.facingMode, revSnap := s.reviewMode,
                           recSnap := s.recording, tlSnap := s.timeLeft }],
                      acquireCalls := s.acquireCalls + 1 }

/-- `startRecordingProcess`: a fresh MediaRecorder on the given stream,
`chunksRef.current = []`, `mediaRecorder.start()`, `setRecording(true)`. -/
def startRecordingProcess (sid : Nat) (s : RecorderModel) : RecorderModel :=
  { s with mediaRecorder := some { streamId := sid, state := RecState.recording, stops := 0 },
           chunks := [],
           recording := true }

def stopRecordingAux (s : RecorderModel) : Option MediaRec → RecorderModel
  | some mr =>
    if mr.state = RecState.recording then
      { s with mediaRecorder := some { mr with state := RecState.inactive, stops := mr.stops + 1 },
               stopPending := true }
    else s
  | none => s

/-- `stopRecording`: calls `mediaRecorderRef.current.stop()` only when the
ref holds a recorder whose state is `'recording'`. -/
def stopRecording (s : RecorderModel) : RecorderModel :=
  stopRecordingAux s s.mediaRecorder

/-- The `onstop` handler: build the blob from the buffered chunks, publish
it as `videoUrl`, enter review mode, clear `recording`, stop the camera. -/
def onRecorderStop (s : RecorderModel) : RecorderModel :=
  stopCamera { s with videoUrl := some s.chunks,
                      reviewMode := true,
                      recording := false,
                      stopPending := false }

/-- The `ondataavailable` handler: push the fragment iff its size is
strictly positive. -/
def ondataavailable (c : Chunk) (s : RecorderModel) : RecorderModel :=
  if 0 < c.size then { s with chunks := s.chunks ++ [c] } else s

/-- Model of `new Date().toISOString()` as an injective function of the
clock value supplied by the environment. -/
def isoTimestamp (now : Nat) : String :=
  "T" ++ toString now

def handleSaveAux (p : Props) (now : Nat) (s : RecorderModel) :
    Option Blob → RecorderModel
  | some u =>
    { s with saved := s.saved ++
        [{ id := "VID-" ++ toString now,
           url := u,
           timestamp := isoTimestamp now,
           duration := 60 - s.timeLeft,
           emergencyType := p.emergencyType,
           location := p.location }] }
  | none => s

/-- `handleSave`: when `videoUrl` is set, invoke `onSave` once with the
artifact; otherwise do nothing. -/
def handleSave (p : Props) (now : Nat) (s : RecorderModel) : RecorderModel :=
  handleSaveAux p now s s.videoUrl

/-- `toggleMute`: flips the muted flag when a stream is held. -/
def toggleMute (s : RecorderModel) : RecorderModel :=
  if s.streamRef.isSome then { s with isMuted := !s.isMuted } else s

def flipFacing : Facing → Facing
  | Facing.user => Facing.environment
  | Facing.environment => Facing.user

/-- `toggleCamera` together with the `[facingMode]` effect it re-triggers:
flip the facing mode, run the effect cleanup (`stopCamera`), run
`startCamera` again. -/
def toggleCamera (s : RecorderModel) : RecorderModel :=
  startCamera (stopCamera { s with facingMode := flipFacing s.facingMode })

/-- The three screens the component can render. -/
inductive Screen where
  | review
  | error
  | live
deriving DecidableEq, Repr

/-- The component's render selection, in source order: the review overlay
when `reviewMode && videoUrl`, else the error screen when `cameraError`,
else the live recording UI. -/
def render (s : RecorderModel) : Screen :=
  if s.reviewMode = true ∧ s.videoUrl.isSome = true then Screen.review
  else if s.cameraError = true then Screen.error
  else Screen.live

/-- The spec's ViewState: a pure selection over the three stored flags. -/
def viewSelect (cameraError _recording reviewMode : Bool) : Screen :=
  if reviewMode = true then Screen.review
  else if cameraError = true then Screen.error
  else Screen.live

def canDeliverDataAux (sp : Bool) : Option MediaRec → Bool
  | some mr => decide (mr.state = RecState.recording) || sp
  | none => false

/-- The capture primitive can deliver a data fragment while the recorder
is recording, or as the final flush before a queued stop event. -/
def canDeliverData (s : RecorderModel) : Bool :=
  canDeliverDataAux s.stopPending s.mediaRecorder

/-- The initial values of the `useState` hooks and refs. -/
def initState : RecorderModel :=
  { recording := false, timeLeft := 60, isMuted := false,
    facingMode := Facing.environment, cameraError := false,
    reviewMode := false, videoUrl := none, chunks := [],
    streamRef := none, mediaRecorder := none, stopPending := false,
    activeStreams := [], nextStreamId := 0, pendingAcqs := [],
    acquireCalls := 0, saved := [] }

/-- State right after mount: the `[facingMode]` effect has run
`startCamera()` once. -/
def mountedInit : RecorderModel :=
  startCamera initState

/-- The events the environment or the user can cause. -/
inductive Event where
  | tick
  | acqSuccess (i : Nat)
  | acqFail (i : Nat)
  | dataAvail (c : Chunk)
  | recorderStopped
  | pressStop
  | pressToggleCamera
  | pressRetry
  | pressMute
  | pressSave (now : Nat)

/-- The auto-start branch of `startCamera`:
`if (!reviewMode && !recording && timeLeft === 60) startRecordingProcess(stream)`.
The condition reads the closure-captured snapshot of the issuing render;
the effects of `startRecordingProcess` act on the live refs and setters. -/
def autoStart (req : AcqReq) (sid : Nat) (s : RecorderModel) : RecorderModel :=
  if req.revSnap = false ∧ req.recSnap = false ∧ req.tlSnap = 60 then
    startRecordingProcess sid s
  else s

/-- Continuation of `startCamera` after its getUserMedia promise resolves
with a stream: store the ref, attach the preview, and auto-start
recording when the request's captured snapshot passes
`!reviewMode && !recording && timeLeft === 60`. -/
def acqSuccessCont (req : AcqReq) (s : RecorderModel) : RecorderModel :=
  autoStart req s.nextStreamId
    { s with nextStreamId := s.nextStreamId + 1,
             activeStreams := s.nextStreamId :: s.activeStreams,
             streamRef := some s.nextStreamId }

/-- The timer effect body after a state change: when `timeLeft` is `0`
while still recording, `stopRecording` is invoked. -/
def timerEffect (s : RecorderModel) : RecorderModel :=
  if s.timeLeft = 0 ∧ s.recording = true then stopRecording s else s

/-- One interval tick (the effect only installs the interval while
`recording && timeLeft > 0`), followed by the effect re-run on the new
value. -/
def tickStep (s : RecorderModel) : RecorderModel :=
  timerEffect { s with timeLeft := s.timeLeft - 1 }

/-- The guarded step function of the component.  UI presses are only
possible on the screen that shows the corresponding button. -/
def step (p : Props) (s : RecorderModel) : Event → Option RecorderModel
  | Event.tick =>
      if s.recording = true ∧ 0 < s.timeLeft then some (tickStep s) else none
  | Event.acqSuccess i =>
      if h : i < s.pendingAcqs.length then
        some (acqSuccessCont (s.pendingAcqs.get ⟨i, h⟩)
          { s with pendingAcqs := s.pendingAcqs.eraseIdx i })
      else none
  | Event.acqFail i =>
      if i < s.pendingAcqs.length then
        some { s with pendingAcqs := s.pendingAcqs.eraseIdx i, cameraError := true }
      else none
  | Event.dataAvail c =>
      if canDeliverData s = true then some (ondataavailable c s) else none
  | Event.recorderStopped =>
      if s.stopPending = true then some (onRecorderStop s) else none
  | Event.pressStop =>
      if render s = Screen.live then some (stopRecording s) else none
  | Event.pressToggleCamera =>
      if render s = Screen.live then some (toggleCamera s) else none
  | Event.pressRetry =>
      if render s = Screen.error then some { s with cameraError := false } else none
  | Event.pressMute =>
      if render s = Screen.live then some (toggleMute s) else none
  | Event.pressSave now =>
      if render s = Screen.review then some (handleSave p now s) else none

/-- Run a list of events from a state; fails when a guard fails. -/
def run (p : Props) (s : RecorderModel) : List Event → Option RecorderModel
  | [] => some s
  | e :: es =>
    match step p s e with
    | some s1 => run p s1 es
    | none => none

/-- States reachable from the mounted component. -/
inductive Reachable (p : Props) : RecorderModel → Prop where
  | init : Reachable p mountedInit
  | step {s t : RecorderModel} {e : Event} :
      Reachable p s → step p s e = some t → Reachable p t

/-- Reachability restricted to executions in which camera acquisitions
never overlap: every reached state has at most one pending request. -/
inductive NoOverlapReach (p : Props) : RecorderModel → Prop where
  | init : NoOverlapReach p mountedInit
  | step {s t : RecorderModel} {e : Event} :
      NoOverlapReach p s → step p s e = some t →
      t.pendingAcqs.length ≤ 1 → NoOverlapReach p t

/-- The state invariant maintained by every event of the component. -/
structure Inv (s : RecorderModel) : Prop where
  tl_nonneg : 0 ≤ s.timeLeft
  tl_le : s.timeLeft ≤ 60
  rec_mr : s.recording = true → s.mediaRecorder.isSome = true
  mr_stops : ∀ mr, s.mediaRecorder = some mr →
    (mr.state = RecState.recording → mr.stops = 0) ∧
    (mr.state = RecState.inactive → mr.stops = 1)
  rev_url : s.reviewMode = true → s.videoUrl.isSome = true
  fresh : s.recording = false → s.reviewMode = false →
    s.timeLeft = 60 ∧ s.mediaRecorder = none ∧ s.stopPending = false ∧
      s.chunks = [] ∧ s.videoUrl = none
  chunks_pos : ∀ c, c ∈ s.chunks → 0 < c.size
  url_pos : ∀ b, s.videoUrl = some b → ∀ c, c ∈ b → 0 < c.size
  pend_fresh : ∀ req, req ∈ s.pendingAcqs → req.recSnap = false →
    req.revSnap = false → req.tlSnap = 60

lemma inv_congr {s t : RecorderModel} (h : Inv s)
    (hrec : t.recording = s.recording) (htl : t.timeLeft = s.timeLeft)
    (hrev : t.reviewMode = s.reviewMode) (hurl : t.videoUrl = s.videoUrl)
    (hch : t.chunks = s.chunks) (hmr : t.mediaRecorder = s.mediaRecorder)
    (hsp : t.stopPending = s.stopPending)
    (hpend : t.pendingAcqs = s.pendingAcqs) : Inv t := by
  refine ⟨?_, ?_, ?_, ?_, ?_, ?_, ?_, ?_, ?_⟩
  · rw [htl]; exact h.tl_nonneg
  · rw [htl]; exact h.tl_le
  · rw [hrec, hmr]; exact h.rec_mr
  · rw [hmr]; exact h.mr_stops
  · rw [hrev, hurl]; exact h.rev_url
  · rw [hrec, hrev, htl, hmr, hsp, hch, hurl]; exact h.fresh
  · rw [hch]; exact h.chunks_pos
  · rw [hurl]; exact h.url_pos
  · rw [hpend]; exact h.pend_fresh

lemma step_tick (p : Props) (s : RecorderModel) :
    step p s Event.tick =
      if s.recording = true ∧ 0 < s.timeLeft then some (tickStep s) else none := rfl

lemma step_acqSuccess (p : Props) (s : RecorderModel) (i : Nat) :
    step p s (Event.acqSuccess i) =
      if h : i < s.pendingAcqs.length then
        some (acqSuccessCont (s.pendingAcqs.get ⟨i, h⟩)
          { s with pendingAcqs := s.pendingAcqs.eraseIdx i })
      else none := rfl

lemma step_acqFail (p : Props) (s : RecorderModel) (i : Nat) :
    step p s (Event.acqFail i) =
      if i < s.pendingAcqs.length then
        some { s with pendingAcqs := s.pendingAcqs.eraseIdx i, cameraError := true }
      else none := rfl

lemma step_dataAvail (p : Props) (s : RecorderModel) (c : Chunk) :
    step p s (Event.dataAvail c) =
      if canDeliverData s = true then some (ondataavailable c s) else none := rfl

lemma step_recorderStopped (p : Props) (s : RecorderModel) :
    step p s Event.recorderStopped =
      if s.stopPending = true then some (onRecorderStop s) else none := rfl

lemma step_pressStop (p : Props) (s : RecorderModel) :
    step p s Event.pressStop =
      if render s = Screen.live then some (stopRecording s) else none := rfl

lemma step_pressToggleCamera (p : Props) (s : RecorderModel) :
    step p s Event.pressToggleCamera =
      if render s = Screen.live then some (toggleCamera s) else none := rfl

lemma step_pressRetry (p : Props) (s : RecorderModel) :
    step p s Event.pressRetry =
      if render s = Screen.error then some { s with cameraError := false } else none := rfl

lemma step_pressMute (p : Props) (s : RecorderModel) :
    step p s Event.pressMute =
      if render s = Screen.live then some (toggleMute s) else none := rfl

lemma step_pressSave (p : Props) (s : RecorderModel) (now : Nat) :
    step p s (Event.pressSave now) =
      if render s = Screen.review then some (handleSave p now s) else none := rfl

lemma inv_mountedInit : Inv mountedInit := by
  refine ⟨by decide, by decide, by decide, ?_, by decide, by decide, ?_, ?_, ?_⟩
  · exact fun mr hmr => Option.noConfusion hmr
  · exact fun c hc => absurd hc (List.not_mem_nil c)
  · exact fun b hb => Option.noConfusion hb
  · intro req hmem hrec hrev
    have hmem' :
        req ∈ [({ facing := Facing.environment, revSnap := false, recSnap := false, tlSnap := 60 } : AcqReq)] :=
      hmem
    have he := List.mem_singleton.mp hmem'
    subst he
    rfl

lemma inv_stopRecording {s : RecorderModel} (h : Inv s) : Inv (stopRecording s) := by
  show Inv (stopRecordingAux s s.mediaRecorder)
  cases hm : s.mediaRecorder with
  | none => exact h
  | some mr =>
    by_cases hst : mr.state = RecState.recording
    · simp only [stopRecordingAux, if_pos hst]
      refine ⟨h.tl_nonneg, h.tl_le, fun _ => rfl, ?_, h.rev_url, ?_, h.chunks_pos,
        h.url_pos, h.pend_fresh⟩
      · intro mr' hmr'
        have hmr'' : mr' = { mr with state := RecState.inactive, stops := mr.stops + 1 } :=
          (Option.some.injEq _ _ ▸ hmr').symm
        subst hmr''
        constructor
        · intro hcontr; exact absurd hcontr (by simp)
        · intro _
          have := (h.mr_stops mr hm).1 hst
          simp [this]
      · intro h1 h2
        have hnone := (h.fresh h1 h2).2.1
        rw [hm] at hnone
        exact Option.noConfusion hnone
    · simp only [stopRecordingAux, if_neg hst]
      exact h

lemma inv_timerEffect {s : RecorderModel} (h : Inv s) : Inv (timerEffect s) := by
  unfold timerEffect
  split
  · exact inv_stopRecording h
  · exact h

lemma inv_tickStep {s : RecorderModel} (h : Inv s)
    (hrec : s.recording = true) (htl : 0 < s.timeLeft) : Inv (tickStep s) := by
  have h1 : Inv { s with timeLeft := s.timeLeft - 1 } := by
    refine ⟨?_, ?_, h.rec_mr, h.mr_stops, h.rev_url, ?_, h.chunks_pos, h.url_pos,
      h.pend_fresh⟩
    · show (0 : Int) ≤ s.timeLeft - 1
      omega
    · show s.timeLeft - 1 ≤ 60
      have := h.tl_le
      omega
    · intro hf _
      have hf' : s.recording = false := hf
      rw [hrec] at hf'
      exact Bool.noConfusion hf'
  exact inv_timerEffect h1

lemma canDeliverData_eq_false {s : RecorderModel}
    (h1 : s.mediaRecorder = none) : canDeliverData s = false := by
  unfold canDeliverData
  rw [h1]
  rfl

lemma inv_ondata {s : RecorderModel} {c : Chunk} (h : Inv s)
    (hcd : canDeliverData s = true) : Inv (ondataavailable c s) := by
  unfold ondataavailable
  split
  · rename_i hpos
    refine ⟨h.tl_nonneg, h.tl_le, h.rec_mr, h.mr_stops, h.rev_url, ?_, ?_, h.url_pos,
      h.pend_fresh⟩
    · intro h1 h2
      have hnone := (h.fresh h1 h2).2.1
      rw [canDeliverData_eq_false hnone] at hcd
      exact Bool.noConfusion hcd
    · intro d hd
      rcases List.mem_append.mp hd with hd | hd
      · exact h.chunks_pos d hd
      · rw [List.mem_singleton.mp hd]; exact hpos
  · exact h

lemma inv_onRecorderStop {s : RecorderModel} (h : Inv s) : Inv (onRecorderStop s) := by
  refine ⟨h.tl_nonneg, h.tl_le, ?_, h.mr_stops, fun _ => rfl, ?_, h.chunks_pos, ?_,
    h.pend_fresh⟩
  · intro hcontr; exact Bool.noConfusion hcontr
  · intro _ hcontr; exact Bool.noConfusion hcontr
  · intro b hb
    have hb' : s.chunks = b := (Option.some.injEq _ _ ▸ hb)
    subst hb'
    exact h.chunks_pos

lemma inv_autoStart {s : RecorderModel} (req : AcqReq) (sid : Nat) (h : Inv s) :
    Inv (autoStart req sid s) := by
  unfold autoStart
  split
  · refine ⟨h.tl_nonneg, h.tl_le, fun _ => rfl, ?_, h.rev_url, ?_, ?_, h.url_pos,
      h.pend_fresh⟩
    · intro mr hmr
      simp only [startRecordingProcess, Option.some.injEq] at hmr
      subst hmr
      exact ⟨fun _ => rfl, fun hcontr => by simp at hcontr⟩
    · intro hcontr _
      simp [startRecordingProcess] at hcontr
    · intro c hc
      simp [startRecordingProcess] at hc
  · exact h

lemma inv_acqSuccessCont {s : RecorderModel} (req : AcqReq) (h : Inv s) :
    Inv (acqSuccessCont req s) :=
  inv_autoStart req s.nextStreamId (inv_congr h rfl rfl rfl rfl rfl rfl rfl rfl)

lemma inv_eraseIdx {s : RecorderModel} (i : Nat) (h : Inv s) :
    Inv { s with pendingAcqs := s.pendingAcqs.eraseIdx i } := by
  refine ⟨h.tl_nonneg, h.tl_le, h.rec_mr, h.mr_stops, h.rev_url, h.fresh,
    h.chunks_pos, h.url_pos, ?_⟩
  intro req hmem hrec hrev
  have hmem' : req ∈ s.pendingAcqs :=
    (List.eraseIdx_sublist s.pendingAcqs i).subset hmem
  exact h.pend_fresh req hmem' hrec hrev

lemma inv_toggleCamera {s : RecorderModel} (h : Inv s) : Inv (toggleCamera s) := by
  refine ⟨h.tl_nonneg, h.tl_le, h.rec_mr, h.mr_stops, h.rev_url, h.fresh,
    h.chunks_pos, h.url_pos, ?_⟩
  intro req hmem hrec hrev
  have hmem' : req ∈ s.pendingAcqs ++
      [{ facing := flipFacing s.facingMode, revSnap := s.reviewMode,
         recSnap := s.recording, tlSnap := s.timeLeft }] := hmem
  rcases List.mem_append.mp hmem' with hm | hm
  · exact h.pend_fresh req hm hrec hrev
  · have he := List.mem_singleton.mp hm
    subst he
    have hr2 : s.recording = false := hrec
    have hv2 : s.reviewMode = false := hrev
    exact (h.fresh hr2 hv2).1

lemma inv_handleSave {s : RecorderModel} {p : Props} {now : Nat} (h : Inv s) :
    Inv (handleSave p now s) := by
  show Inv (handleSaveAux p now s s.videoUrl)
  cases hu : s.videoUrl with
  | none => exact h
  | some u => exact inv_congr h rfl rfl rfl rfl rfl rfl rfl rfl

lemma inv_toggleMute {s : RecorderModel} (h : Inv s) : Inv (toggleMute s) := by
  unfold toggleMute
  split
  · exact inv_congr h rfl rfl rfl rfl rfl rfl rfl rfl
  · exact h

lemma inv_step {p : Props} {s t : RecorderModel} {e : Event}
    (h : Inv s) (hstep : step p s e = some t) : Inv t := by
  cases e with
  | tick =>
    rw [step_tick] at hstep
    split at hstep
    · rename_i hg
      injection hstep with hst
      subst hst
      exact inv_tickStep h hg.1 hg.2
    · exact Option.noConfusion hstep
  | acqSuccess i =>
    rw [step_acqSuccess] at hstep
    split at hstep
    · injection hstep with hst
      subst hst
      exact inv_acqSuccessCont _ (inv_eraseIdx i h)
    · exact Option.noConfusion hstep
  | acqFail i =>
    rw [step_acqFail] at hstep
    split at hstep
    · injection hstep with hst
      subst hst
      exact inv_congr (inv_eraseIdx i h) rfl rfl rfl rfl rfl rfl rfl rfl
    · exact Option.noConfusion hstep
  | dataAvail c =>
    rw [step_dataAvail] at hstep
    split at hstep
    · rename_i hcd
      injection hstep with hst
      subst hst
      exact inv_ondata h hcd
    · exact Option.noConfusion hstep
  | recorderStopped =>
    rw [step_recorderStopped] at hstep
    split at hstep
    · injection hstep with hst
      subst hst
      exact inv_onRecorderStop h
    · exact Option.noConfusion hstep
  | pressStop =>
    rw [step_pressStop] at hstep
    split at hstep
    · injection hstep with hst
      subst hst
      exact inv_stopRecording h
    · exact Option.noConfusion hstep
  | pressToggleCamera =>
    rw [step_pressToggleCamera] at hstep
    split at hstep
    · injection hstep with hst
      subst hst
      exact inv_toggleCamera h
    · exact Option.noConfusion hstep
  | pressRetry =>
    rw [step_pressRetry] at hstep
    split at hstep
    · injection hstep with hst
      subst hst
      exact inv_congr h rfl rfl rfl rfl rfl rfl rfl rfl
    · exact Option.noConfusion hstep
  | pressMute =>
    rw [step_pressMute] at hstep
    split at hstep
    · injection hstep with hst
      subst hst
      exact inv_toggleMute h
    · exact Option.noConfusion hstep
  | pressSave now =>
    rw [step_pressSave] at hstep
    split at hstep
    · injection hstep with hst
      subst hst
      exact inv_handleSave h
    · exact Option.noConfusion hstep

lemma inv_reachable {p : Props} {s : RecorderModel} (h : Reachable p s) : Inv s := by
  induction h with
  | init => exact inv_mountedInit
  | step _ hstep ih => exact inv_step ih hstep

lemma run_reachable {p : Props} {s t : RecorderModel} {es : List Event}
    (h : Reachable p s) (hr : run p s es = some t) : Reachable p t := by
  induction es generalizing s with
  | nil =>
    have ht : s = t := (Option.some.injEq _ _ ▸ hr)
    exact ht ▸ h
  | cons e es ih =>
    unfold run at hr
    cases hstep : step p s e with
    | none => rw [hstep] at hr; exact Option.noConfusion hr
    | some s1 =>
      rw [hstep] at hr
      exact ih (Reachable.step h hstep) hr

/-- Invariant of executions without overlapping acquisitions: the active
streams are exactly the one held in `streamRef`, and while a request is
pending no stream is held. -/
structure Inv5 (s : RecorderModel) : Prop where
  ref_some : ∀ i, s.streamRef = some i → s.activeStreams = [i]
  ref_none : s.streamRef = none → s.activeStreams = []
  pending_ref : s.pendingAcqs ≠ [] → s.streamRef = none
  pending_le : s.pendingAcqs.length ≤ 1

lemma inv5_congr {s t : RecorderModel} (h : Inv5 s)
    (h1 : t.streamRef = s.streamRef) (h2 : t.activeStreams = s.activeStreams)
    (h3 : t.pendingAcqs = s.pendingAcqs) : Inv5 t := by
  refine ⟨?_, ?_, ?_, ?_⟩
  · intro i hi; rw [h1] at hi; rw [h2]; exact h.ref_some i hi
  · intro hn; rw [h1] at hn; rw [h2]; exact h.ref_none hn
  · intro hp; rw [h3] at hp; rw [h1]; exact h.pending_ref hp
  · rw [h3]; exact h.pending_le

lemma inv5_mountedInit : Inv5 mountedInit := by
  refine ⟨?_, fun _ => rfl, fun _ => rfl, by decide⟩
  exact fun i hi => Option.noConfusion hi

lemma stopRecordingAux_streams (s : RecorderModel) (o : Option MediaRec) :
    (stopRecordingAux s o).streamRef = s.streamRef ∧
    (stopRecordingAux s o).activeStreams = s.activeStreams ∧
    (stopRecordingAux s o).pendingAcqs = s.pendingAcqs := by
  cases o with
  | none => exact ⟨rfl, rfl, rfl⟩
  | some mr =>
    simp only [stopRecordingAux]
    split
    · exact ⟨rfl, rfl, rfl⟩
    · exact ⟨rfl, rfl, rfl⟩

lemma tickStep_streams (s : RecorderModel) :
    (tickStep s).streamRef = s.streamRef ∧
    (tickStep s).activeStreams = s.activeStreams ∧
    (tickStep s).pendingAcqs = s.pendingAcqs := by
  unfold tickStep timerEffect
  split
  · exact stopRecordingAux_streams _ _
  · exact ⟨rfl, rfl, rfl⟩

lemma autoStart_streams (req : AcqReq) (sid : Nat) (s : RecorderModel) :
    (autoStart req sid s).streamRef = s.streamRef ∧
    (autoStart req sid s).activeStreams = s.activeStreams ∧
    (autoStart req sid s).pendingAcqs = s.pendingAcqs := by
  unfold autoStart
  split
  · exact ⟨rfl, rfl, rfl⟩
  · exact ⟨rfl, rfl, rfl⟩

lemma acqSuccessCont_streams (req : AcqReq) (s : RecorderModel) :
    (acqSuccessCont req s).streamRef = some s.nextStreamId ∧
    (acqSuccessCont req s).activeStreams = s.nextStreamId :: s.activeStreams ∧
    (acqSuccessCont req s).pendingAcqs = s.pendingAcqs := by
  unfold acqSuccessCont
  obtain ⟨a, b, c⟩ := autoStart_streams req s.nextStreamId _
  exact ⟨a, b, c⟩

lemma ondata_streams (c : Chunk) (s : RecorderModel) :
    (ondataavailable c s).streamRef = s.streamRef ∧
    (ondataavailable c s).activeStreams = s.activeStreams ∧
    (ondataavailable c s).pendingAcqs = s.pendingAcqs := by
  unfold ondataavailable
  split
  · exact ⟨rfl, rfl, rfl⟩
  · exact ⟨rfl, rfl, rfl⟩

lemma toggleMute_streams (s : RecorderModel) :
    (toggleMute s).streamRef = s.streamRef ∧
    (toggleMute s).activeStreams = s.activeStreams ∧
    (toggleMute s).pendingAcqs = s.pendingAcqs := by
  unfold toggleMute
  split
  · exact ⟨rfl, rfl, rfl⟩
  · exact ⟨rfl, rfl, rfl⟩

lemma handleSave_streams (p : Props) (now : Nat) (s : RecorderModel) :
    (handleSave p now s).streamRef = s.streamRef ∧
    (handleSave p now s).activeStreams = s.activeStreams ∧
    (handleSave p now s).pendingAcqs = s.pendingAcqs := by
  show (handleSaveAux p now s s.videoUrl).streamRef = s.streamRef ∧
    (handleSaveAux p now s s.videoUrl).activeStreams = s.activeStreams ∧
    (handleSaveAux p now s s.videoUrl).pendingAcqs = s.pendingAcqs
  cases s.videoUrl with
  | none => exact ⟨rfl, rfl, rfl⟩
  | some u => exact ⟨rfl, rfl, rfl⟩

lemma stopTracks_self {s : RecorderModel} (h : Inv5 s) :
    stopTracks s.streamRef s.activeStreams = [] := by
  cases hr : s.streamRef with
  | none =>
    exact h.ref_none hr
  | some j =>
    show s.activeStreams.erase j = []
    rw [h.ref_some j hr]
    simp

lemma inv5_step {p : Props} {s t : RecorderModel} {e : Event}
    (h : Inv5 s) (hstep : step p s e = some t)
    (hlen : t.pendingAcqs.length ≤ 1) : Inv5 t := by
  cases e with
  | tick =>
    rw [step_tick] at hstep
    split at hstep
    · injection hstep with hst
      subst hst
      obtain ⟨a, b, c⟩ := tickStep_streams s
      exact inv5_congr h a b c
    · exact Option.noConfusion hstep
  | acqSuccess i =>
    rw [step_acqSuccess] at hstep
    split at hstep
    · rename_i hi
      injection hstep with hst
      subst hst
      have hne : s.pendingAcqs ≠ [] := by
        intro hnil
        rw [hnil] at hi
        simp at hi
      have href : s.streamRef = none := h.pending_ref hne
      have hact : s.activeStreams = [] := h.ref_none href
      have hlen1 : s.pendingAcqs.length = 1 := by
        have := h.pending_le
        omega
      have hi0 : i = 0 := by
        rw [hlen1] at hi
        omega
      obtain ⟨a0, ha0⟩ := List.length_eq_one.mp hlen1
      have hemp : s.pendingAcqs.eraseIdx i = [] := by
        rw [ha0, hi0]
        rfl
      obtain ⟨e1, e2, e3⟩ :=
        acqSuccessCont_streams _ { s with pendingAcqs := s.pendingAcqs.eraseIdx i }
      refine ⟨?_, ?_, ?_, hlen⟩
      · intro j hj
        rw [e1] at hj
        injection hj with hj'
        have hj2 : s.nextStreamId = j := hj'
        rw [e2]
        show s.nextStreamId :: s.activeStreams = [j]
        rw [hact, hj2]
      · intro hn
        rw [e1] at hn
        exact Option.noConfusion hn
      · intro hp
        rw [e3] at hp
        have hp2 : s.pendingAcqs.eraseIdx i ≠ [] := hp
        exact (hp2 hemp).elim
    · exact Option.noConfusion hstep
  | acqFail i =>
    rw [step_acqFail] at hstep
    split at hstep
    · injection hstep with hst
      subst hst
      refine ⟨?_, ?_, ?_, hlen⟩
      · intro j hj
        exact h.ref_some j hj
      · intro hn
        exact h.ref_none hn
      · intro hp
        have hp' : s.pendingAcqs.eraseIdx i ≠ [] := hp
        have hne : s.pendingAcqs ≠ [] := by
          intro hc
          rw [hc] at hp'
          simp at hp'
        exact h.pending_ref hne
    · exact Option.noConfusion hstep
  | dataAvail c =>
    rw [step_dataAvail] at hstep
    split at hstep
    · injection hstep with hst
      subst hst
      obtain ⟨a, b, c'⟩ := ondata_streams c s
      exact inv5_congr h a b c'
    · exact Option.noConfusion hstep
  | recorderStopped =>
    rw [step_recorderStopped] at hstep
    split at hstep
    · injection hstep with hst
      subst hst
      refine ⟨?_, fun _ => ?_, fun _ => rfl, hlen⟩
      · intro j hj
        exact Option.noConfusion hj
      · show stopTracks s.streamRef s.activeStreams = []
        exact stopTracks_self h
    · exact Option.noConfusion hstep
  | pressStop =>
    rw [step_pressStop] at hstep
    split at hstep
    · injection hstep with hst
      subst hst
      obtain ⟨a, b, c⟩ := stopRecordingAux_streams s s.mediaRecorder
      exact inv5_congr h a b c
    · exact Option.noConfusion hstep
  | pressToggleCamera =>
    rw [step_pressToggleCamera] at hstep
    split at hstep
    · injection hstep with hst
      subst hst
      refine ⟨?_, fun _ => ?_, fun _ => rfl, hlen⟩
      · intro j hj
        exact Option.noConfusion hj
      · show stopTracks s.streamRef s.activeStreams = []
        exact stopTracks_self h
    · exact Option.noConfusion hstep
  | pressRetry =>
    rw [step_pressRetry] at hstep
    split at hstep
    · injection hstep with hst
      subst hst
      exact inv5_congr h rfl rfl rfl
    · exact Option.noConfusion hstep
  | pressMute =>
    rw [step_pressMute] at hstep
    split at hstep
    · injection hstep with hst
      subst hst
      obtain ⟨a, b, c⟩ := toggleMute_streams s
      exact inv5_congr h a b c
    · exact Option.noConfusion hstep
  | pressSave now =>
    rw [step_pressSave] at hstep
    split at hstep
    · injection hstep with hst
      subst hst
      obtain ⟨a, b, c⟩ := handleSave_streams p now s
      exact inv5_congr h a b c
    · exact Option.noConfusion hstep

lemma inv5_noOverlap {p : Props} {s : RecorderModel} (h : NoOverlapReach p s) : Inv5 s := by
  induction h with
  | init => exact inv5_mountedInit
  | step _ hstep hlen ih => exact inv5_step ih hstep hlen

/-- Once the component has entered review mode with a published clip, a
cleared recording flag and no acquisition still pending, those facts,
the timer value, and the duration stamped on any newly saved artifact
are frozen.  (A pending request issued before recording started would
pass its stale closure snapshot check on resolution and restart
recording even during review — hence the no-pending condition.) -/
structure Frozen (T : Int) (base : List VideoEvidence) (s : RecorderModel) : Prop where
  rev : s.reviewMode = true
  url : s.videoUrl.isSome = true
  recOff : s.recording = false
  tl : s.timeLeft = T
  sv : ∀ a, a ∈ s.saved → a ∈ base ∨ a.duration = 60 - T
  pend : s.pendingAcqs = []

lemma render_of_review {s : RecorderModel}
    (h1 : s.reviewMode = true) (h2 : s.videoUrl.isSome = true) :
    render s = Screen.review := by
  unfold render
  rw [if_pos ⟨h1, h2⟩]

lemma frozen_step {p : Props} {T : Int} {base : List VideoEvidence}
    {s t : RecorderModel} {e : Event}
    (h : Frozen T base s) (hstep : step p s e = some t) : Frozen T base t := by
  cases e with
  | tick =>
    rw [step_tick] at hstep
    split at hstep
    · rename_i hg
      have hc := hg.1
      rw [h.recOff] at hc
      exact Bool.noConfusion hc
    · exact Option.noConfusion hstep
  | acqSuccess i =>
    rw [step_acqSuccess] at hstep
    split at hstep
    · rename_i hi
      rw [h.pend] at hi
      simp at hi
    · exact Option.noConfusion hstep
  | acqFail i =>
    rw [step_acqFail] at hstep
    split at hstep
    · rename_i hi
      rw [h.pend] at hi
      simp at hi
    · exact Option.noConfusion hstep
  | dataAvail c =>
    rw [step_dataAvail] at hstep
    split at hstep
    · injection hstep with hst
      subst hst
      unfold ondataavailable
      split
      · exact ⟨h.rev, h.url, h.recOff, h.tl, h.sv, h.pend⟩
      · exact ⟨h.rev, h.url, h.recOff, h.tl, h.sv, h.pend⟩
    · exact Option.noConfusion hstep
  | recorderStopped =>
    rw [step_recorderStopped] at hstep
    split at hstep
    · injection hstep with hst
      subst hst
      exact ⟨rfl, rfl, rfl, h.tl, h.sv, h.pend⟩
    · exact Option.noConfusion hstep
  | pressStop =>
    rw [step_pressStop] at hstep
    split at hstep
    · rename_i hg
      rw [render_of_review h.rev h.url] at hg
      exact Screen.noConfusion hg
    · exact Option.noConfusion hstep
  | pressToggleCamera =>
    rw [step_pressToggleCamera] at hstep
    split at hstep
    · rename_i hg
      rw [render_of_review h.rev h.url] at hg
      exact Screen.noConfusion hg
    · exact Option.noConfusion hstep
  | pressRetry =>
    rw [step_pressRetry] at hstep
    split at hstep
    · rename_i hg
      rw [render_of_review h.rev h.url] at hg
      exact Screen.noConfusion hg
    · exact Option.noConfusion hstep
  | pressMute =>
    rw [step_pressMute] at hstep
    split at hstep
    · rename_i hg
      rw [render_of_review h.rev h.url] at hg
      exact Screen.noConfusion hg
    · exact Option.noConfusion hstep
  | pressSave now =>
    rw [step_pressSave] at hstep
    split at hstep
    · injection hstep with hst
      subst hst
      obtain ⟨u, hu⟩ := Option.isSome_iff_exists.mp h.url
      show Frozen T base (handleSaveAux p now s s.videoUrl)
      rw [hu]
      refine ⟨h.rev, ?_, h.recOff, h.tl, ?_, h.pend⟩
      · show s.videoUrl.isSome = true
        exact h.url
      · intro a ha
        have ha' : a ∈ s.saved ++
            [{ id := "VID-" ++ toString now, url := u, timestamp := isoTimestamp now,
               duration := 60 - s.timeLeft, emergencyType := p.emergencyType,
               location := p.location }] := ha
        rcases List.mem_append.mp ha' with hmem | hmem
        · exact h.sv a hmem
        · right
          rw [List.mem_singleton.mp hmem]
          show 60 - s.timeLeft = 60 - T
          rw [h.tl]
    · exact Option.noConfusion hstep

lemma frozen_run {p : Props} {T : Int} {base : List VideoEvidence}
    {s t : RecorderModel} {es : List Event}
    (h : Frozen T base s) (hr : run p s es = some t) : Frozen T base t := by
  induction es generalizing s with
  | nil =>
    have ht : s = t := (Option.some.injEq _ _ ▸ hr)
    exact ht ▸ h
  | cons e es ih =>
    unfold run at hr
    cases hstep : step p s e with
    | none => rw [hstep] at hr; exact Option.noConfusion hr
    | some s1 =>
      rw [hstep] at hr
      exact ih (frozen_step h hstep) hr

/-- Concrete props used for concrete executions. -/
def propsA : Props :=
  { emergencyId := "E1", emergencyType := "fire",
    location := { latitude := 10, longitude := 20 } }

/-- C1: the claim says the Retry action resets `cameraError` and
re-triggers camera acquisition, reaching Recording after a successful
re-acquisition.  Evaluating the code at the failing input: after a failed
mount acquisition, pressing Retry leaves zero pending getUserMedia
requests and the `startCamera` call count still at one — `cameraError`
is cleared but no acquisition is re-attempted, so the component idles on
the live screen without recording. -/
theorem c1_retry_does_not_reacquire :
    (run propsA mountedInit [Event.acqFail 0, Event.pressRetry]).map
      (fun s => (s.cameraError, s.pendingAcqs.length, s.acquireCalls,
                 s.recording, s.reviewMode))
      = some (false, 0, 1, false, false) := by
  rfl

/-- The C2 failing execution: one fragment is buffered, one second
elapses, the user flips the camera mid-recording, the new stream is
acquired, the timer runs out, the stop event fires, the user confirms. -/
def c2trace : List Event :=
  [Event.acqSuccess 0, Event.dataAvail { cid := 1, size := 5 }, Event.tick,
   Event.pressToggleCamera, Event.acqSuccess 0]
    ++ List.replicate 59 Event.tick
    ++ [Event.recorderStopped, Event.pressSave 3]

/-- C2: the claim says a facing switch mid-recording cancels the
in-flight recording, discards the buffered fragments and restarts from
duration 0, and that the prior fragments never reach a later artifact.
Evaluating the code: right after the switch the component is still
recording with `timeLeft = 59` (not restarted), the pre-switch fragment
is still buffered and the pre-switch recorder is still the current one;
when the timer runs out, the saved artifact consists exactly of the
pre-switch fragment with duration 60. -/
theorem c2_switch_keeps_fragments :
    ((run propsA mountedInit
        [Event.acqSuccess 0, Event.dataAvail { cid := 1, size := 5 }, Event.tick,
         Event.pressToggleCamera, Event.acqSuccess 0]).map
      (fun s => (s.recording, s.timeLeft, s.chunks, s.mediaRecorder))
      = some (true, 59, [{ cid := 1, size := 5 }],
              some { streamId := 0, state := RecState.recording, stops := 0 })) ∧
    ((run propsA mountedInit c2trace).map
      (fun s => (s.saved.map VideoEvidence.url, s.saved.map VideoEvidence.duration))
      = some ([[{ cid := 1, size := 5 }]], [60])) := by
  exact ⟨rfl, rfl⟩

/-- C3: `handleSave` on a state with a finalized clip invokes the save
callback exactly once, with an artifact whose duration is the ceiling
minus the remaining time and whose emergency type and location echo the
props. -/
theorem c3_confirm_save_artifact (p : Props) (now : Nat) (s : RecorderModel)
    (u : Blob) (h : s.videoUrl = some u) :
    handleSave p now s =
      { s with saved := s.saved ++
          [{ id := "VID-" ++ toString now, url := u, timestamp := isoTimestamp now,
             duration := 60 - s.timeLeft, emergencyType := p.emergencyType,
             location := p.location }] } := by
  show handleSaveAux p now s s.videoUrl = _
  conv_lhs => rw [h]
  rfl

/-- A concrete review-mode state with a finalized clip. -/
def demoReview : RecorderModel :=
  { initState with videoUrl := some [{ cid := 1, size := 5 }],
                   reviewMode := true, timeLeft := 50 }

/-- C3 witness at a concrete state. -/
theorem c3_confirm_save_artifact_witness :
    handleSave propsA 7 demoReview =
      { demoReview with saved := demoReview.saved ++
          [{ id := "VID-" ++ toString 7, url := [{ cid := 1, size := 5 }],
             timestamp := isoTimestamp 7, duration := 60 - demoReview.timeLeft,
             emergencyType := propsA.emergencyType,
             location := propsA.location }] } :=
  c3_confirm_save_artifact propsA 7 demoReview [{ cid := 1, size := 5 }] rfl

lemma tickStep_cases (s : RecorderModel) :
    (s.timeLeft - 1 = 0 ∧ s.recording = true ∧
      tickStep s = stopRecording { s with timeLeft := s.timeLeft - 1 }) ∨
    (¬(s.timeLeft - 1 = 0 ∧ s.recording = true) ∧
      tickStep s = { s with timeLeft := s.timeLeft - 1 }) := by
  unfold tickStep timerEffect
  split
  · rename_i hcond
    exact Or.inl ⟨hcond.1, hcond.2, rfl⟩
  · rename_i hcond
    exact Or.inr ⟨hcond, rfl⟩

lemma stopRecording_mr {s : RecorderModel} {mr : MediaRec}
    (hmr : s.mediaRecorder = some mr) :
    (mr.state = RecState.recording ∧ (stopRecording s).mediaRecorder =
      some { mr with state := RecState.inactive, stops := mr.stops + 1 }) ∨
    (mr.state ≠ RecState.recording ∧ (stopRecording s).mediaRecorder = some mr) := by
  have he : stopRecording s = stopRecordingAux s (some mr) := by
    unfold stopRecording
    rw [hmr]
  rw [he]
  simp only [stopRecordingAux]
  split
  · rename_i hst
    exact Or.inl ⟨hst, rfl⟩
  · rename_i hst
    exact Or.inr ⟨hst, by rw [hmr]⟩

/-- C4: on every reachable state the countdown is never negative, the
current recorder has been stopped at most once, and a tick that brings
the countdown to zero while recording leaves the recorder stopped
exactly once. -/
theorem c4_timer_nonneg_single_stop (p : Props) (s : RecorderModel)
    (h : Reachable p s) :
    0 ≤ s.timeLeft ∧
    (∀ mr, s.mediaRecorder = some mr → mr.stops ≤ 1) ∧
    (∀ t, step p s Event.tick = some t → t.timeLeft = 0 →
      ∃ mr, t.mediaRecorder = some mr ∧ mr.stops = 1 ∧
        mr.state = RecState.inactive) := by
  have hi := inv_reachable h
  refine ⟨hi.tl_nonneg, ?_, ?_⟩
  · intro mr hmr
    rcases hi.mr_stops mr hmr with ⟨ha, hb⟩
    cases hst : mr.state with
    | recording => rw [ha hst]; omega
    | inactive => rw [hb hst]
  · intro t ht htl0
    rw [step_tick] at ht
    split at ht
    · rename_i hg
      injection ht with ht'
      subst ht'
      obtain ⟨mr, hmr⟩ := Option.isSome_iff_exists.mp (hi.rec_mr hg.1)
      rcases tickStep_cases s with ⟨hz, hr2, heq⟩ | ⟨hnc, heq⟩
      · rw [heq]
        have hmr1 : ({ s with timeLeft := s.timeLeft - 1 } :
            RecorderModel).mediaRecorder = some mr := hmr
        rcases stopRecording_mr hmr1 with ⟨hst, hres⟩ | ⟨hst, hres⟩
        · refine ⟨_, hres, ?_, rfl⟩
          show mr.stops + 1 = 1
          rw [(hi.mr_stops mr hmr).1 hst]
        · have hst' : mr.state = RecState.inactive := by
            cases hv : mr.state with
            | recording => exact absurd hv hst
            | inactive => rfl
          exact ⟨mr, hres, (hi.mr_stops mr hmr).2 hst', hst'⟩
      · exfalso
        rw [heq] at htl0
        have htl0' : s.timeLeft - 1 = 0 := htl0
        exact hnc ⟨htl0', hg.1⟩
    · exact Option.noConfusion ht

/-- A reachable state one tick before expiry, mid-recording. -/
def c4state : RecorderModel :=
  (run propsA mountedInit
    ([Event.acqSuccess 0] ++ List.replicate 59 Event.tick)).getD initState

/-- C4 witness at a concrete reachable state. -/
theorem c4_timer_nonneg_single_stop_witness :
    0 ≤ c4state.timeLeft ∧
    (∀ mr, c4state.mediaRecorder = some mr → mr.stops ≤ 1) ∧
    (∀ t, step propsA c4state Event.tick = some t → t.timeLeft = 0 →
      ∃ mr, t.mediaRecorder = some mr ∧ mr.stops = 1 ∧
        mr.state = RecState.inactive) :=
  c4_timer_nonneg_single_stop propsA c4state
    (run_reachable Reachable.init
      (show run propsA mountedInit
          ([Event.acqSuccess 0] ++ List.replicate 59 Event.tick) = some c4state
        from rfl))

/-- C5 counterexample: the claim asserts at most one active capture
session at every instant of every execution.  When a facing switch is
issued while the mount acquisition is still pending, both requests
resolve and two streams are active at once (the first is never
released). -/
theorem c5_single_session_counterexample :
    (run propsA mountedInit
      [Event.pressToggleCamera, Event.acqSuccess 0, Event.acqSuccess 0]).map
      (fun s => s.activeStreams.length) = some 2 ∧ ¬(2 ≤ 1) :=
  ⟨rfl, by decide⟩

/-- C5 (amended): in executions where acquisitions never overlap, at most
one capture session is active at any instant; while a request is pending
no session is active, so an acquisition failure leaves none. -/
theorem c5_single_session_no_overlap (p : Props) (s : RecorderModel)
    (h : NoOverlapReach p s) :
    s.activeStreams.length ≤ 1 ∧
    (s.pendingAcqs ≠ [] → s.streamRef = none ∧ s.activeStreams = []) := by
  have h5 := inv5_noOverlap h
  constructor
  · cases hr : s.streamRef with
    | none =>
      rw [h5.ref_none hr]
      simp
    | some j =>
      rw [h5.ref_some j hr]
      simp
  · intro hp
    have hn := h5.pending_ref hp
    exact ⟨hn, h5.ref_none hn⟩

/-- C5 witness at the mounted state. -/
theorem c5_single_session_no_overlap_witness :
    mountedInit.activeStreams.length ≤ 1 ∧
    (mountedInit.pendingAcqs ≠ [] →
      mountedInit.streamRef = none ∧ mountedInit.activeStreams = []) :=
  c5_single_session_no_overlap propsA mountedInit NoOverlapReach.init

/-- Recording for ten seconds, then a manual stop. -/
def c6stopTrace : List Event :=
  [Event.acqSuccess 0] ++ List.replicate 10 Event.tick ++ [Event.pressStop]

/-- C6 counterexample: the claim says a manual stop halts the timer and
the reported duration is the ceiling minus the remaining time at the
stop instant.  At the stop instant the remaining time is 50, yet a tick
is still possible before the recorder's stop event fires, and the saved
artifact reports duration 11 rather than 60 − 50 = 10. -/
theorem c6_manual_stop_counterexample :
    ((run propsA mountedInit c6stopTrace).map
      (fun s => (s.timeLeft, s.recording)) = some (50, true)) ∧
    ((run propsA mountedInit
        (c6stopTrace ++ [Event.tick, Event.recorderStopped, Event.pressSave 5])).map
      (fun s => s.saved.map VideoEvidence.duration) = some [11]) ∧
    (11 : Int) ≠ 60 - 50 :=
  ⟨rfl, rfl, by decide⟩

/-- C6 (amended): once the recorder's stop event fires, with no camera
acquisition still pending at that instant, the timer is halted — no tick
is possible afterwards, the countdown is frozen, and every artifact
saved later reports duration equal to the ceiling minus the remaining
time at the instant the stop event fired.  (Without the no-pending
proviso, a request issued before recording started can resolve after
review and restart recording through its stale closure snapshot,
resuming the timer.) -/
theorem c6_manual_stop_amended (p : Props) (s s1 s2 : RecorderModel)
    (es : List Event) (h1 : step p s Event.recorderStopped = some s1)
    (hp : s1.pendingAcqs = []) (h2 : run p s1 es = some s2) :
    s1.recording = false ∧ s1.reviewMode = true ∧
    s2.timeLeft = s1.timeLeft ∧ s2.recording = false ∧
    (∀ a, a ∈ s2.saved → a ∈ s1.saved ∨ a.duration = 60 - s1.timeLeft) := by
  rw [step_recorderStopped] at h1
  split at h1
  · injection h1 with h1'
    subst h1'
    have hf : Frozen (onRecorderStop s).timeLeft (onRecorderStop s).saved
        (onRecorderStop s) := ⟨rfl, rfl, rfl, rfl, fun a ha => Or.inl ha, hp⟩
    have hf2 := frozen_run hf h2
    exact ⟨rfl, rfl, hf2.tl, hf2.recOff, hf2.sv⟩
  · exact Option.noConfusion h1

def c6base : RecorderModel :=
  (run propsA mountedInit c6stopTrace).getD initState

def c6afterStop : RecorderModel :=
  (step propsA c6base Event.recorderStopped).getD initState

def c6final : RecorderModel :=
  (run propsA c6afterStop [Event.pressSave 7]).getD initState

/-- C6 witness at a concrete stop-event state. -/
theorem c6_manual_stop_amended_witness :
    c6afterStop.recording = false ∧ c6afterStop.reviewMode = true ∧
    c6final.timeLeft = c6afterStop.timeLeft ∧ c6final.recording = false ∧
    (∀ a, a ∈ c6final.saved →
      a ∈ c6afterStop.saved ∨ a.duration = 60 - c6afterStop.timeLeft) :=
  c6_manual_stop_amended propsA c6base c6afterStop c6final
    [Event.pressSave 7] (by rfl) (by rfl) (by rfl)

/-- C7: the rendered screen follows the source's first-match-wins order
(review overlay when reviewing with a finalized clip, else error screen
on cameraError, else the live screen), and on every reachable state it
is a pure function of the three stored flags. -/
theorem c7_view_selection (p : Props) (s : RecorderModel) (h : Reachable p s) :
    render s = (if s.reviewMode = true ∧ s.videoUrl.isSome = true then Screen.review
      else if s.cameraError = true then Screen.error else Screen.live) ∧
    render s = viewSelect s.cameraError s.recording s.reviewMode := by
  refine ⟨rfl, ?_⟩
  have hi := inv_reachable h
  unfold render viewSelect
  cases hrv : s.reviewMode with
  | true =>
    have hu := hi.rev_url hrv
    rw [if_pos ⟨rfl, hu⟩, if_pos rfl]
  | false =>
    rw [if_neg (show ¬(false = true ∧ s.videoUrl.isSome = true) by simp),
        if_neg (show ¬(false = true) by simp)]

/-- C7 witness at the mounted state. -/
theorem c7_view_selection_witness :
    render mountedInit =
      (if mountedInit.reviewMode = true ∧ mountedInit.videoUrl.isSome = true
        then Screen.review
        else if mountedInit.cameraError = true then Screen.error else Screen.live) ∧
    render mountedInit =
      viewSelect mountedInit.cameraError mountedInit.recording mountedInit.reviewMode :=
  c7_view_selection propsA mountedInit Reachable.init

/-- C8 counterexample: the claim says recording must not auto-start when
the component is already mid-recording.  After a facing switch issued at
mount time (before recording started), the component is mid-recording on
stream 0 with one buffered fragment and one request still pending; that
request's successful resolution passes its stale issuance-time snapshot
check and restarts the recording process — the recorder is replaced by a
fresh one on stream 1 and the buffered fragment is discarded. -/
theorem c8_autostart_counterexample :
    ((run propsA mountedInit
        [Event.pressToggleCamera, Event.acqSuccess 0,
         Event.dataAvail { cid := 1, size := 5 }]).map
      (fun s => (s.recording, s.mediaRecorder, s.chunks, s.pendingAcqs.length))
      = some (true, some { streamId := 0, state := RecState.recording, stops := 0 },
              [{ cid := 1, size := 5 }], 1)) ∧
    ((run propsA mountedInit
        [Event.pressToggleCamera, Event.acqSuccess 0,
         Event.dataAvail { cid := 1, size := 5 }, Event.acqSuccess 0]).map
      (fun s => (s.recording, s.mediaRecorder, s.chunks))
      = some (true, some { streamId := 1, state := RecState.recording, stops := 0 }, [])) :=
  ⟨rfl, rfl⟩

/-- C8 (amended): on every successful acquisition, recording auto-starts
exactly when the state snapshot captured at the render that issued the
request had neither review mode nor recording in progress (for requests
the component actually issues, the source's extra `timeLeft === 60`
snapshot conjunct is implied); when the snapshot shows reviewing or
recording, the resolution leaves the recorder, the buffer and the
recording flag untouched.  In particular a facing switch issued before
recording started auto-starts recording on the new session.  Unlike the
claim, the check does not read the component state at resolution time. -/
theorem c8_autostart_on_acquire (p : Props) (s t : RecorderModel) (i : Nat)
    (req : AcqReq) (hR : Reachable p s)
    (hreq : s.pendingAcqs.get? i = some req)
    (hstep : step p s (Event.acqSuccess i) = some t) :
    ((req.revSnap = false ∧ req.recSnap = false) →
      t.recording = true ∧
      t.mediaRecorder =
        some { streamId := s.nextStreamId, state := RecState.recording, stops := 0 } ∧
      t.chunks = []) ∧
    ((req.revSnap = true ∨ req.recSnap = true) →
      t.recording = s.recording ∧ t.mediaRecorder = s.mediaRecorder ∧
      t.chunks = s.chunks) := by
  have hinv := inv_reachable hR
  rw [step_acqSuccess] at hstep
  split at hstep
  · rename_i hlt
    rw [List.get?_eq_get hlt] at hreq
    injection hreq with hreq'
    subst hreq'
    injection hstep with hst
    subst hst
    unfold acqSuccessCont autoStart
    split
    · rename_i hg
      constructor
      · intro _
        exact ⟨rfl, rfl, rfl⟩
      · intro hor
        rcases hor with hv | hv
        · rw [hg.1] at hv
          exact Bool.noConfusion hv
        · rw [hg.2.1] at hv
          exact Bool.noConfusion hv
    · rename_i hg
      constructor
      · rintro ⟨hrev, hrec⟩
        have hmem : s.pendingAcqs.get ⟨i, hlt⟩ ∈ s.pendingAcqs :=
          List.get_mem _ _ _
        have htl := hinv.pend_fresh _ hmem hrec hrev
        exact absurd ⟨hrev, hrec, htl⟩ hg
      · intro _
        exact ⟨rfl, rfl, rfl⟩
  · exact Option.noConfusion hstep

/-- The request issued at mount, with its captured snapshot. -/
def mountReq : AcqReq :=
  { facing := Facing.environment, revSnap := false, recSnap := false, tlSnap := 60 }

def c8after : RecorderModel :=
  (step propsA mountedInit (Event.acqSuccess 0)).getD initState

/-- C8 witness: the mount request's snapshot is fresh, so its resolution
auto-starts recording on the new stream. -/
theorem c8_autostart_on_acquire_witness :
    ((mountReq.revSnap = false ∧ mountReq.recSnap = false) →
      c8after.recording = true ∧
      c8after.mediaRecorder =
        some { streamId := mountedInit.nextStreamId, state := RecState.recording, stops := 0 } ∧
      c8after.chunks = []) ∧
    ((mountReq.revSnap = true ∨ mountReq.recSnap = true) →
      c8after.recording = mountedInit.recording ∧
      c8after.mediaRecorder = mountedInit.mediaRecorder ∧
      c8after.chunks = mountedInit.chunks) :=
  c8_autostart_on_acquire propsA mountedInit c8after 0 mountReq
    Reachable.init (by rfl) (by rfl)

/-- C9: the Confirm-Save handler does nothing when no finalized clip
exists — the save callback is never invoked without `videoUrl`. -/
theorem c9_save_requires_clip (p : Props) (now : Nat) (s : RecorderModel)
    (h : s.videoUrl = none) : handleSave p now s = s := by
  show handleSaveAux p now s s.videoUrl = s
  rw [h]
  rfl

/-- C9 witness at the initial state. -/
theorem c9_save_requires_clip_witness : handleSave propsA 3 initState = initState :=
  c9_save_requires_clip propsA 3 initState rfl

/-- C10: every buffered fragment has positive size, the finalized clip is
assembled only from positive-size fragments, and the data handler drops
zero-size fragments unchanged. -/
theorem c10_nonempty_fragments (p : Props) (s : RecorderModel)
    (h : Reachable p s) :
    (∀ c, c ∈ s.chunks → 0 < c.size) ∧
    (∀ b, s.videoUrl = some b → ∀ c, c ∈ b → 0 < c.size) ∧
    (∀ c : Chunk, c.size = 0 → ondataavailable c s = s) := by
  have hi := inv_reachable h
  refine ⟨hi.chunks_pos, hi.url_pos, ?_⟩
  intro c hc
  unfold ondataavailable
  rw [if_neg (by omega)]

def c10state : RecorderModel :=
  (run propsA mountedInit
    [Event.acqSuccess 0, Event.dataAvail { cid := 1, size := 5 }]).getD initState

/-- C10 witness at a concrete reachable state with one buffered fragment. -/
theorem c10_nonempty_fragments_witness :
    (∀ c, c ∈ c10state.chunks → 0 < c.size) ∧
    (∀ b, c10state.videoUrl = some b → ∀ c, c ∈ b → 0 < c.size) ∧
    (∀ c : Chunk, c.size = 0 → ondataavailable c c10state = c10state) :=
  c10_nonempty_fragments propsA c10state
    (run_reachable Reachable.init
      (show run propsA mountedInit
          [Event.acqSuccess 0, Event.dataAvail { cid := 1, size := 5 }] = some c10state
        from rfl))

end CERS
